import Mathlib

/- Verification of the signtalk real-time pipeline core against its spec.

   Embedded components (shallow embedding, exact rational arithmetic):
   - mode arbitration        backend/app/mode_manager.py
   - performance governor    backend/app/performance_optimizer.py
   - two-channel fusion      backend/app/services/ensemble_translator.py

   Wall-clock instants (datetime.now() / time.time()) are passed in
   explicitly as rational timestamps; Python floats are modelled as
   exact rationals. -/

/-- The `TranslationMode` enum of mode_manager.py. -/
inductive TranslationMode
  | speechToSign
  | signToSpeech
  | autoDetect
deriving DecidableEq, Repr

/-- Mutable state of `ModeManager` (mode_manager.py, `__init__`). -/
structure ModeManager where
  current_mode : TranslationMode
  last_mode_switch : ℚ
  audio_levels : List ℚ
  motion_levels : List ℚ
deriving DecidableEq, Repr

/-- `self.audio_level_threshold = 0.1`. -/
def audio_level_threshold : ℚ := 1/10

/-- `self.motion_level_threshold = 0.2`. -/
def motion_level_threshold : ℚ := 1/5

/-- `self.mode_switch_cooldown = 1.0`. -/
def mode_switch_cooldown : ℚ := 1

/-- `self.buffer_size = 10`. -/
def modeBufferSize : ℕ := 10

/-- `ModeManager.__init__`: initial state at construction time `t0`
(`last_mode_switch = datetime.now()`, empty rolling buffers). -/
def ModeManager.init (t0 : ℚ) : ModeManager :=
  { current_mode := TranslationMode.autoDetect
    last_mode_switch := t0
    audio_levels := []
    motion_levels := [] }

/-- Rolling-buffer push of `detect_active_mode`: `append` the new sample,
then `pop(0)` once the buffer exceeds `buffer_size`. -/
def pushLevel (buf : List ℚ) (x : ℚ) : List ℚ :=
  let buf := buf ++ [x]
  if buf.length > modeBufferSize then buf.drop 1 else buf

/-- `sum(levels) / len(levels) if levels else 0`. -/
def avgLevel (buf : List ℚ) : ℚ :=
  if buf.length = 0 then 0 else buf.sum / (buf.length : ℚ)

/-- `ModeManager.detect_active_mode` (mode_manager.py lines 22-74).
Returns the detected mode and the updated manager state.  The two
`datetime.now()` reads in the body are modelled by the single call
instant `now`. -/
def detect_active_mode (s : ModeManager) (now audio_level motion_level : ℚ)
    (has_hands : Bool) : TranslationMode × ModeManager :=
  let audioLevels := pushLevel s.audio_levels audio_level
  let motionLevels := pushLevel s.motion_levels motion_level
  let avg_audio := avgLevel audioLevels
  let avg_motion := avgLevel motionLevels
  let s1 : ModeManager :=
    { s with audio_levels := audioLevels, motion_levels := motionLevels }
  if now - s.last_mode_switch < mode_switch_cooldown then
    (s.current_mode, s1)
  else
    let detected_mode :=
      if s.current_mode = TranslationMode.autoDetect then
        if avg_audio > audio_level_threshold then TranslationMode.speechToSign
        else if has_hands = true ∧ avg_motion > motion_level_threshold then
          TranslationMode.signToSpeech
        else s.current_mode
      else if s.current_mode = TranslationMode.speechToSign then
        if avg_audio < audio_level_threshold * (1/2) ∧ has_hands = true ∧
            avg_motion > motion_level_threshold then
          TranslationMode.signToSpeech
        else s.current_mode
      else if s.current_mode = TranslationMode.signToSpeech then
        if avg_audio > audio_level_threshold then TranslationMode.speechToSign
        else s.current_mode
      else s.current_mode
    if detected_mode ≠ s.current_mode then
      (detected_mode, { s1 with current_mode := detected_mode, last_mode_switch := now })
    else
      (detected_mode, s1)

/-- One timed input event fed to `detect_active_mode`. -/
structure ModeInput where
  time : ℚ
  audio : ℚ
  motion : ℚ
  hands : Bool
deriving DecidableEq, Repr

/-- Run `detect_active_mode` over a sequence of timed inputs, collecting
the returned modes. -/
def runModeTrace (s : ModeManager) : List ModeInput → List TranslationMode
  | [] => []
  | i :: is =>
    let r := detect_active_mode s i.time i.audio i.motion i.hands
    r.1 :: runModeTrace r.2 is

/-- Concrete two-call input trace against a manager constructed at
t = 0: a call at t = 0.5 falls inside the construction cooldown window
and returns `autoDetect`; the next call at t = 1.0 (cooldown elapsed,
loud audio) transitions to `speechToSign` — two successive calls only
0.5 s apart returning different modes. -/
def c1Trace : List ModeInput :=
  [⟨1/2, 1, 0, false⟩, ⟨1, 1, 0, false⟩]

/-- Names of the six metric deques in `PerformanceOptimizer.__init__`. -/
inductive MetricName
  | audioLatency
  | videoLatency
  | translationLatency
  | frameRate
  | audioProcessingTime
  | videoProcessingTime
deriving DecidableEq, Repr

/-- The six `deque(maxlen=100)` metric buffers (`self.metrics`). -/
structure Metrics where
  audio_latency : List ℚ
  video_latency : List ℚ
  translation_latency : List ℚ
  frame_rate : List ℚ
  audio_processing_time : List ℚ
  video_processing_time : List ℚ
deriving DecidableEq, Repr

/-- `deque(maxlen=100).append`: drop the leftmost element once the
buffer exceeds 100 entries. -/
def dequeAppend (l : List ℚ) (x : ℚ) : List ℚ :=
  let l := l ++ [x]
  if l.length > 100 then l.drop 1 else l

/-- `self.metrics[metric_name].append(latency)`. -/
def Metrics.push (m : Metrics) (name : MetricName) (x : ℚ) : Metrics :=
  match name with
  | MetricName.audioLatency => { m with audio_latency := dequeAppend m.audio_latency x }
  | MetricName.videoLatency => { m with video_latency := dequeAppend m.video_latency x }
  | MetricName.translationLatency =>
      { m with translation_latency := dequeAppend m.translation_latency x }
  | MetricName.frameRate => { m with frame_rate := dequeAppend m.frame_rate x }
  | MetricName.audioProcessingTime =>
      { m with audio_processing_time := dequeAppend m.audio_processing_time x }
  | MetricName.videoProcessingTime =>
      { m with video_processing_time := dequeAppend m.video_processing_time x }

/-- `self.optimization_settings` dictionary. -/
structure OptimizationSettings where
  enable_frame_skipping : Bool
  enable_audio_compression : Bool
  enable_caching : Bool
  max_resolution : ℕ × ℕ
  target_fps : ℚ
  audio_sample_rate : ℕ
  i3d_buffer_size : ℕ
  i3d_sequence_length : ℕ
  i3d_stride : ℕ
  enable_i3d : Bool
deriving DecidableEq, Repr

/-- Mutable state of `PerformanceOptimizer` (performance_optimizer.py).
`gesture_memo` is the state of the `functools.lru_cache(maxsize=128)`
attached to `get_cached_gesture`, kept in most-recently-used-first
order; `cache` is the insertion-ordered dict `self._cache`.  The cached
payload type (a Python `Dict`) is abstracted as `α`. -/
structure PerformanceOptimizer (α : Type) where
  metrics : Metrics
  frame_skip_threshold : ℕ
  audio_buffer_size : ℕ
  last_frame_time : ℚ
  frame_count : ℕ
  optimization_settings : OptimizationSettings
  cache : List (String × α)
  gesture_memo : List (String × Option α)

/-- `PerformanceOptimizer.__init__` at construction instant `t0`. -/
def PerformanceOptimizer.init (α : Type) (t0 : ℚ) : PerformanceOptimizer α :=
  { metrics := ⟨[], [], [], [], [], []⟩
    frame_skip_threshold := 30
    audio_buffer_size := 2048
    last_frame_time := t0
    frame_count := 0
    optimization_settings :=
      { enable_frame_skipping := true
        enable_audio_compression := true
        enable_caching := true
        max_resolution := (640, 480)
        target_fps := 15
        audio_sample_rate := 16000
        i3d_buffer_size := 128
        i3d_sequence_length := 64
        i3d_stride := 16
        enable_i3d := true }
    cache := []
    gesture_memo := [] }

/-- `measure_latency(start_time, metric_name)` at call instant `now`:
records `(now - start_time) * 1000` ms into the named deque.  A `none`
name models a string that is not a key of `self.metrics` (the source
skips the append for those). -/
def measure_latency (s : PerformanceOptimizer α) (start_time now : ℚ)
    (name : Option MetricName) : ℚ × PerformanceOptimizer α :=
  let latency := (now - start_time) * 1000
  match name with
  | some n => (latency, { s with metrics := s.metrics.push n latency })
  | none => (latency, s)

/-- `should_skip_frame()` at call instant `now` (`current_time =
time.time()`): returns the skip decision and the updated state. -/
def should_skip_frame (s : PerformanceOptimizer α) (now : ℚ) :
    Bool × PerformanceOptimizer α :=
  if s.optimization_settings.enable_frame_skipping = false then (false, s)
  else
    let time_since_last_frame := now - s.last_frame_time
    let current_fps := if time_since_last_frame > 0 then 1 / time_since_last_frame else 0
    if current_fps > s.optimization_settings.target_fps then (true, s)
    else (false, { s with last_frame_time := now })

/-- Mean of a metric deque as read by `auto_adjust_quality`:
`get_performance_stats` only emits an `avg` for non-empty deques and the
caller falls back to 0 (`stats.get(name, {}).get("avg", 0)`). -/
def meanOrZero (l : List ℚ) : ℚ :=
  if l.length = 0 then 0 else l.sum / (l.length : ℚ)

/-- `auto_adjust_quality()` (performance_optimizer.py lines 168-187).
It reads the means of the `video_latency` and `audio_latency` deques.
`int(current_res[i] * 0.8)` is modelled as the exact floor
`current_res[i] * 4 / 5` (natural-number division). -/
def auto_adjust_quality (s : PerformanceOptimizer α) : PerformanceOptimizer α :=
  let avg_video_latency := meanOrZero s.metrics.video_latency
  let avg_audio_latency := meanOrZero s.metrics.audio_latency
  let s :=
    if avg_video_latency > 100 then
      let current_res := s.optimization_settings.max_resolution
      let new_width := current_res.1 * 4 / 5
      let new_height := current_res.2 * 4 / 5
      { s with optimization_settings :=
          { s.optimization_settings with
              max_resolution := (max 320 new_width, max 240 new_height) } }
    else s
  if avg_audio_latency > 50 then
    { s with optimization_settings :=
        { s.optimization_settings with
            audio_sample_rate :=
              max 8000 (s.optimization_settings.audio_sample_rate - 2000) } }
  else s

/-- Python-dict lookup `d.get(k)` on an insertion-ordered association
list (keys are unique by construction of `dictSet`). -/
def dictGet (l : List (String × α)) (k : String) : Option α :=
  match l.find? (fun p => p.1 == k) with
  | some p => some p.2
  | none => none

/-- Python-dict assignment `d[k] = v`: updates in place when the key
exists (keeping its insertion position), otherwise appends. -/
def dictSet (l : List (String × α)) (k : String) (v : α) : List (String × α) :=
  if l.any (fun p => p.1 == k) then
    l.map (fun p => if p.1 == k then (k, v) else p)
  else l ++ [(k, v)]

/-- Lookup in the `lru_cache` memo table of `get_cached_gesture`. -/
def memoLookup (memo : List (String × Option α)) (k : String) :
    Option (Option α) :=
  match memo.find? (fun p => p.1 == k) with
  | some p => some p.2
  | none => none

/-- `get_cached_gesture(gesture_key)` with its
`functools.lru_cache(maxsize=128)` wrapper: on a memo hit the memoized
value is returned (the entry moves to most-recently-used position,
`self._cache` is not consulted); on a miss the body runs
(`self._cache.get(gesture_key)`), the result is memoized, and the
least-recently-used entry is evicted past capacity 128. -/
def get_cached_gesture (s : PerformanceOptimizer α) (k : String) :
    Option α × PerformanceOptimizer α :=
  match memoLookup s.gesture_memo k with
  | some v =>
    (v, { s with gesture_memo := (k, v) :: s.gesture_memo.filter (fun p => !(p.1 == k)) })
  | none =>
    let v := dictGet s.cache k
    let memo := (k, v) :: s.gesture_memo
    let memo := if memo.length > 128 then memo.dropLast else memo
    (v, { s with gesture_memo := memo })

/-- `cache_gesture(gesture_key, data)`: stores into `self._cache` when
caching is enabled, then deletes the 20 oldest keys once the dict
exceeds 100 entries.  The memo table of `get_cached_gesture` is never
touched. -/
def cache_gesture (s : PerformanceOptimizer α) (k : String) (d : α) :
    PerformanceOptimizer α :=
  if s.optimization_settings.enable_caching then
    let c := dictSet s.cache k d
    let c := if c.length > 100 then c.drop 20 else c
    { s with cache := c }
  else s

/-- Governor state after one video-processing latency of 200 ms has been
recorded via `measure_latency(start, "video_processing_time")` (the
metric written by `optimize_video_frame`). -/
def c4State : PerformanceOptimizer ℕ :=
  (measure_latency (PerformanceOptimizer.init ℕ 0) 0 (1/5)
    (some MetricName.videoProcessingTime)).2

/-- State after a first `get_cached_gesture "g"` miss (memoizing `none`)
followed by `cache_gesture "g" 7`. -/
def c10State : PerformanceOptimizer ℕ :=
  cache_gesture (get_cached_gesture (PerformanceOptimizer.init ℕ 0) "g").2 "g" 7

/-- One model prediction dict as consumed by `_ensemble_predictions`
(ensemble_translator.py): the fields of the inference result the fusion
logic reads.  `probabilities` is the model's full score vector,
`prediction` its own top-1 class id. -/
structure Prediction where
  success : Bool
  model : String
  probabilities : List ℚ
  prediction : ℕ
  confidence : ℚ
deriving DecidableEq, Repr

/-- `self.ensemble_weights`: a Python dict from model name to weight. -/
abbrev EnsembleWeights := List (String × ℚ)

/-- The constructor default `{'i3d': 0.6, 'tgcn': 0.4}`. -/
def defaultEnsembleWeights : EnsembleWeights := [("i3d", 3/5), ("tgcn", 2/5)]

/-- `self.ensemble_weights = ensemble_weights or {...}` in
`EnsembleTranslator.__init__`: the argument is stored as given (a falsy
argument — `None` or an empty dict — selects the default); no
normalization is performed here. -/
def initEnsembleWeights (w : Option EnsembleWeights) : EnsembleWeights :=
  match w with
  | some ws => if ws.isEmpty then defaultEnsembleWeights else ws
  | none => defaultEnsembleWeights

/-- `self.ensemble_weights.get(model, 0.5)`. -/
def weightsGet (w : EnsembleWeights) (m : String) : ℚ :=
  match w.find? (fun p => p.1 == m) with
  | some p => p.2
  | none => 1/2

/-- `sum(self.ensemble_weights.values())`. -/
def weightsSum (w : EnsembleWeights) : ℚ := (w.map (fun p => p.2)).sum

/-- `update_ensemble_weights(weights)`: stores `{k: v/total}` where
`total = sum(weights.values())`. -/
def update_ensemble_weights (w : EnsembleWeights) : EnsembleWeights :=
  let total := weightsSum w
  w.map (fun p => (p.1, p.2 / total))

/-- The `self.stats` dictionary of `EnsembleTranslator`. -/
structure EnsembleStats where
  ensemble_predictions : ℕ
  i3d_only : ℕ
  tgcn_only : ℕ
  agreement_rate : ℚ
  average_confidence : ℚ
deriving DecidableEq, Repr

/-- Initial statistics set in `EnsembleTranslator.__init__`. -/
def initEnsembleStats : EnsembleStats := ⟨0, 0, 0, 0, 0⟩

/-- The three return shapes of `_ensemble_predictions`: the no-valid-input
error dict, the single-model pass-through (a copy of the sole valid
prediction plus `method`/`models_used` markers), and the fused ensemble
result.  Response-formatting fields that the fusion logic merely copies
out (`gloss`, `text`, top-k extraction, `latency_ms`) are not modelled;
they do not affect any verified property. -/
inductive EnsembleOutcome
  | failure
  | single (p : Prediction)
  | fused (prediction : ℕ) (confidence : ℚ) (probabilities : List ℚ)
      (models_used : List String) (agreement : Bool)
deriving DecidableEq, Repr

/-- The `result['method']` marker of each return shape. -/
def EnsembleOutcome.method : EnsembleOutcome → String
  | EnsembleOutcome.failure => "ensemble"
  | EnsembleOutcome.single _ => "ensemble_single"
  | EnsembleOutcome.fused _ _ _ _ _ => "ensemble"

/-- The `result['models_used']` list of each return shape. -/
def EnsembleOutcome.modelsUsed : EnsembleOutcome → List String
  | EnsembleOutcome.failure => []
  | EnsembleOutcome.single p => [p.model]
  | EnsembleOutcome.fused _ _ _ used _ => used

/-- The top-1 class id (`result['prediction']`) when one exists. -/
def EnsembleOutcome.top1 : EnsembleOutcome → Option ℕ
  | EnsembleOutcome.failure => none
  | EnsembleOutcome.single p => some p.prediction
  | EnsembleOutcome.fused pid _ _ _ _ => some pid

/-- The `result['agreement']` flag; only the fused shape carries one. -/
def EnsembleOutcome.agreementFlag : EnsembleOutcome → Option Bool
  | EnsembleOutcome.fused _ _ _ _ ag => some ag
  | _ => none

/-- `[p for p in predictions if p.get('success', False)]`. -/
def validOf (preds : List Prediction) : List Prediction :=
  preds.filter (fun p => p.success)

/-- `np.argmax` on a score vector: index of the first occurrence of the
maximum (0 on the empty list). -/
def argmaxQ : List ℚ → ℕ
  | [] => 0
  | [_] => 0
  | x :: y :: ys =>
    let j := argmaxQ (y :: ys)
    if x < (y :: ys).getD j 0 then j + 1 else 0

/-- `probs * weight` for one model (line 216 of
ensemble_translator.py): the raw stored weight scales the vector. -/
def weightedProbs (w : EnsembleWeights) (p : Prediction) : List ℚ :=
  p.probabilities.map (fun q => q * weightsGet w p.model)

/-- The accumulation loop building `ensemble_probs`: the first valid
prediction initialises it, later ones are added elementwise (numpy `+=`
on equal-length vectors; on a length mismatch numpy would raise, the
embedding truncates). -/
def accumProbs (w : EnsembleWeights) : List Prediction → List ℚ
  | [] => []
  | p :: ps =>
    ps.foldl (fun acc q => List.zipWith (· + ·) acc (weightedProbs w q)) (weightedProbs w p)

/-- `ensemble_probs = ensemble_probs / sum(self.ensemble_weights.values())`
applied to the accumulated weighted sum. -/
def ensembleProbsOf (w : EnsembleWeights) (valid : List Prediction) : List ℚ :=
  (accumProbs w valid).map (fun q => q / weightsSum w)

/-- The `model_results` dict keyed by model name, storing each model's
individual `(prediction, confidence)` (insertion-ordered; a duplicate
model name overwrites in place, as a Python dict does). -/
def modelResults (valid : List Prediction) : List (String × (ℕ × ℚ)) :=
  valid.foldl (fun d p => dictSet d p.model (p.prediction, p.confidence)) []

/-- `len(set(model_predictions)) == 1`: a nonempty list whose elements
are all equal. -/
def allSame : List ℕ → Bool
  | [] => false
  | x :: xs => xs.all (fun y => y == x)

/-- `agreement = len(set(model_predictions)) == 1` over the values of
`model_results`. -/
def agreementOf (valid : List Prediction) : Bool :=
  allSame ((modelResults valid).map (fun r => r.2.1))

/-- `self.stats[f"{model}_only"] += 1` in the single-model fallback.  A
model name other than `'i3d'`/`'tgcn'` would raise `KeyError` in the
source; the only producers tag predictions with exactly those names. -/
def bumpSingle (st : EnsembleStats) (m : String) : EnsembleStats :=
  if m == "i3d" then { st with i3d_only := st.i3d_only + 1 }
  else if m == "tgcn" then { st with tgcn_only := st.tgcn_only + 1 }
  else st

/-- The statistics update of the multi-model branch (lines 251-259):
increment the fusion count and fold the agreement flag and fused
confidence into the incremental means. -/
def recordFusion (st : EnsembleStats) (agreement : Bool) (confidence : ℚ) :
    EnsembleStats :=
  let n := st.ensemble_predictions + 1
  { st with
      ensemble_predictions := n
      agreement_rate :=
        (st.agreement_rate * ((n : ℚ) - 1) + (if agreement then 1 else 0)) / (n : ℚ)
      average_confidence :=
        (st.average_confidence * ((n : ℚ) - 1) + confidence) / (n : ℚ) }

/-- `_ensemble_predictions(predictions)` (ensemble_translator.py lines
173-282): filter to successful predictions, fall back on zero or one
survivor, otherwise fuse the weighted score vectors, take the arg-max,
check agreement and update the running statistics. -/
def ensemble_predictions (w : EnsembleWeights) (st : EnsembleStats)
    (preds : List Prediction) : EnsembleOutcome × EnsembleStats :=
  match validOf preds with
  | [] => (EnsembleOutcome.failure, st)
  | [p] => (EnsembleOutcome.single p, bumpSingle st p.model)
  | p :: q :: rest =>
    let valid := p :: q :: rest
    let probs := ensembleProbsOf w valid
    let prediction_id := argmaxQ probs
    let confidence := probs.getD prediction_id 0
    let agreement := agreementOf valid
    (EnsembleOutcome.fused prediction_id confidence probs
        ((modelResults valid).map (fun r => r.1)) agreement,
      recordFusion st agreement confidence)

/-- Iterate `_ensemble_predictions` over a sequence of prediction
batches, threading the statistics. -/
def run_ensemble (w : EnsembleWeights) (st : EnsembleStats) :
    List (List Prediction) → EnsembleStats
  | [] => st
  | b :: bs => run_ensemble w (ensemble_predictions w st b).2 bs

/-- A batch is recorded in the running fusion statistics exactly when at
least two of its predictions are valid. -/
def isRecorded (b : List Prediction) : Bool :=
  decide (2 ≤ (validOf b).length)

/-- A batch that takes the single-model fallback with sole channel `m`. -/
def isSingleOf (m : String) (b : List Prediction) : Bool :=
  match validOf b with
  | [p] => p.model == m
  | _ => false

/-- The fused confidence `_ensemble_predictions` computes for a
multi-model batch. -/
def fusedConfOf (w : EnsembleWeights) (b : List Prediction) : ℚ :=
  (ensembleProbsOf w (validOf b)).getD (argmaxQ (ensembleProbsOf w (validOf b))) 0

/-- The agreement flag `_ensemble_predictions` computes for a batch. -/
def agreementOfBatch (b : List Prediction) : Bool :=
  agreementOf (validOf b)

/-- First-occurrence strict maximum at index `i`: every entry is at most
`l[i]`, and entries before `i` are strictly below it.  This is what it
means for `i` to be the top-1 (`np.argmax`) of a score vector. -/
def IsFirstMax (l : List ℚ) (i : ℕ) : Prop :=
  i < l.length ∧ (∀ j, j < l.length → l.getD j 0 ≤ l.getD i 0) ∧
    (∀ j, j < i → l.getD j 0 < l.getD i 0)

/-- Ensemble weights as stored by the constructor when the caller
supplies `{'i3d': 2, 'tgcn': 2}`. -/
def c5Weights : EnsembleWeights := initEnsembleWeights (some [("i3d", 2), ("tgcn", 2)])

/-- A concrete i3d prediction with score vector `[1, 0]`. -/
def c5Pred : Prediction :=
  { success := true, model := "i3d", probabilities := [1, 0],
    prediction := 0, confidence := 1 }

/-- Governor state holding one recorded `video_latency` sample of 200 ms. -/
def c4AmState : PerformanceOptimizer ℕ :=
  (measure_latency (PerformanceOptimizer.init ℕ 0) 0 (1/5)
    (some MetricName.videoLatency)).2

/-- A successful i3d prediction whose top-1 is class 1. -/
def wPredI3d : Prediction :=
  { success := true, model := "i3d", probabilities := [1/10, 7/10, 1/5],
    prediction := 1, confidence := 7/10 }

/-- A successful tgcn prediction whose top-1 is class 1. -/
def wPredTgcn : Prediction :=
  { success := true, model := "tgcn", probabilities := [0, 9/10, 1/10],
    prediction := 1, confidence := 9/10 }

/-- A failed tgcn prediction (as produced by `_get_tgcn_prediction` on an
inference exception). -/
def wPredFail : Prediction :=
  { success := false, model := "tgcn", probabilities := [],
    prediction := 0, confidence := 0 }

theorem pushLevel_length_le (l : List ℚ) (x : ℚ) (h : l.length ≤ modeBufferSize) :
    (pushLevel l x).length ≤ modeBufferSize := by
  simp only [pushLevel]
  split_ifs with hlen
  · simp only [List.length_drop, List.length_append, List.length_cons, List.length_nil]
    omega
  · simp only [List.length_append, List.length_cons, List.length_nil] at hlen ⊢
    omega

theorem detect_active_mode_buffers (s : ModeManager) (now a m : ℚ) (hh : Bool) :
    ((detect_active_mode s now a m hh).2).audio_levels = pushLevel s.audio_levels a ∧
    ((detect_active_mode s now a m hh).2).motion_levels = pushLevel s.motion_levels m := by
  simp only [detect_active_mode]
  refine ⟨?_, ?_⟩ <;> (split_ifs <;> rfl)

/-- C9: every call to `detect_active_mode` appends the new audio and
motion samples and evicts the oldest sample once a buffer exceeds 10
entries; this update happens unconditionally (before the cooldown
check), so buffers never exceed 10 samples and the smoothed averages
keep absorbing new samples during the cooldown window. -/
theorem C9_rolling_buffers (s : ModeManager) (now a m : ℚ) (hh : Bool) :
    ((detect_active_mode s now a m hh).2).audio_levels =
      (if (s.audio_levels ++ [a]).length > 10 then (s.audio_levels ++ [a]).drop 1
       else s.audio_levels ++ [a]) ∧
    ((detect_active_mode s now a m hh).2).motion_levels =
      (if (s.motion_levels ++ [m]).length > 10 then (s.motion_levels ++ [m]).drop 1
       else s.motion_levels ++ [m]) ∧
    (s.audio_levels.length ≤ 10 →
      ((detect_active_mode s now a m hh).2).audio_levels.length ≤ 10) ∧
    (s.motion_levels.length ≤ 10 →
      ((detect_active_mode s now a m hh).2).motion_levels.length ≤ 10) := by
  obtain ⟨ha, hm⟩ := detect_active_mode_buffers s now a m hh
  refine ⟨?_, ?_, ?_, ?_⟩
  · rw [ha]; rfl
  · rw [hm]; rfl
  · intro h
    rw [ha]
    exact pushLevel_length_le _ _ h
  · intro h
    rw [hm]
    exact pushLevel_length_le _ _ h

theorem C9_rolling_buffers_witness :
    ((detect_active_mode (ModeManager.init 0) 2 1 1 true).2).audio_levels.length ≤ 10 ∧
    ((detect_active_mode (ModeManager.init 0) 2 1 1 true).2).motion_levels.length ≤ 10 :=
  ⟨(C9_rolling_buffers (ModeManager.init 0) 2 1 1 true).2.2.1 (by simp [ModeManager.init]),
   (C9_rolling_buffers (ModeManager.init 0) 2 1 1 true).2.2.2 (by simp [ModeManager.init])⟩

/-- C1 counterexample: on this concrete trace two successive calls to
`detect_active_mode` — at t = 0.5 and t = 1.0, only 0.5 s apart —
return different modes (`autoDetect`, then `speechToSign`).  The
cooldown constrains the spacing of transitions, not the spacing of
calls whose returned modes differ, so the claim's consequence fails. -/
theorem C1_cooldown_counterexample :
    runModeTrace (ModeManager.init 0) c1Trace =
      [TranslationMode.autoDetect, TranslationMode.speechToSign] ∧
    (c1Trace.map ModeInput.time) = [1/2, 1] ∧
    (1 : ℚ) - 1/2 < mode_switch_cooldown ∧
    TranslationMode.autoDetect ≠ TranslationMode.speechToSign := by
  refine ⟨?_, ?_, ?_, ?_⟩
  · norm_num [runModeTrace, detect_active_mode, ModeManager.init, c1Trace, pushLevel,
      avgLevel, modeBufferSize, audio_level_threshold, motion_level_threshold,
      mode_switch_cooldown, List.sum_cons]
    simp
  · norm_num [c1Trace]
  · norm_num [mode_switch_cooldown]
  · simp

/-- C1 amended: a call strictly inside the cooldown window returns the
current mode with no transition (mode and transition timestamp
unchanged), regardless of the inputs; and whenever a call does return a
changed mode, at least `mode_switch_cooldown` seconds have elapsed since
the last transition and the transition timestamp is set to the call
instant — so no two transitions occur within the cooldown window
(successive calls may still return different modes less than
`mode_switch_cooldown` apart). -/
theorem C1_cooldown_blocks_transitions (s : ModeManager) (now a m : ℚ) (hh : Bool) :
    (now - s.last_mode_switch < mode_switch_cooldown →
      (detect_active_mode s now a m hh).1 = s.current_mode ∧
      ((detect_active_mode s now a m hh).2).current_mode = s.current_mode ∧
      ((detect_active_mode s now a m hh).2).last_mode_switch = s.last_mode_switch) ∧
    ((detect_active_mode s now a m hh).1 ≠ s.current_mode →
      mode_switch_cooldown ≤ now - s.last_mode_switch ∧
      ((detect_active_mode s now a m hh).2).last_mode_switch = now ∧
      ((detect_active_mode s now a m hh).2).current_mode =
        (detect_active_mode s now a m hh).1) := by
  constructor
  · intro hc
    simp [detect_active_mode, if_pos hc]
  · intro hne
    by_cases hc : now - s.last_mode_switch < mode_switch_cooldown
    · exfalso
      apply hne
      simp [detect_active_mode, if_pos hc]
    · refine ⟨le_of_not_lt hc, ?_, ?_⟩ <;>
        · simp only [detect_active_mode, if_neg hc] at hne ⊢
          split_ifs at hne ⊢ <;> simp_all

theorem C1_cooldown_blocks_transitions_witness :
    (detect_active_mode (ModeManager.init 0) (1/2) 1 1 true).1 =
      TranslationMode.autoDetect :=
  ((C1_cooldown_blocks_transitions (ModeManager.init 0) (1/2) 1 1 true).1
    (by norm_num [ModeManager.init, mode_switch_cooldown])).1

/-- C8: with the cooldown elapsed, `detect_active_mode` follows the
priority rules on the smoothed (buffer-updated) levels — from
`autoDetect`, audio above threshold wins (speech), else hands plus
motion above threshold give sign, else stay; from `speechToSign`, only
audio below half the threshold together with hands and motion switches
to sign (hysteresis); from `signToSpeech`, audio above threshold
switches back to speech; otherwise the mode is unchanged. -/
theorem C8_priority_transitions (s : ModeManager) (now a m : ℚ) (hh : Bool)
    (hcd : mode_switch_cooldown ≤ now - s.last_mode_switch) :
    (detect_active_mode s now a m hh).1 =
      (match s.current_mode with
       | TranslationMode.autoDetect =>
         if avgLevel (pushLevel s.audio_levels a) > audio_level_threshold then
           TranslationMode.speechToSign
         else if hh = true ∧ avgLevel (pushLevel s.motion_levels m) > motion_level_threshold then
           TranslationMode.signToSpeech
         else TranslationMode.autoDetect
       | TranslationMode.speechToSign =>
         if avgLevel (pushLevel s.audio_levels a) < audio_level_threshold / 2 ∧
             hh = true ∧ avgLevel (pushLevel s.motion_levels m) > motion_level_threshold then
           TranslationMode.signToSpeech
         else TranslationMode.speechToSign
       | TranslationMode.signToSpeech =>
         if avgLevel (pushLevel s.audio_levels a) > audio_level_threshold then
           TranslationMode.speechToSign
         else TranslationMode.signToSpeech) := by
  have hc : ¬ (now - s.last_mode_switch < mode_switch_cooldown) := not_lt.mpr hcd
  have hhalf : audio_level_threshold * (1/2) = audio_level_threshold / 2 := by ring
  cases hmode : s.current_mode <;>
    simp only [detect_active_mode, if_neg hc, hmode, hhalf] <;>
    split_ifs <;> simp_all

theorem C8_priority_transitions_witness :
    (detect_active_mode (ModeManager.init 0) 2 1 0 false).1 =
      TranslationMode.speechToSign := by
  have h := C8_priority_transitions (ModeManager.init 0) 2 1 0 false
    (by norm_num [ModeManager.init, mode_switch_cooldown])
  rw [h]
  norm_num [ModeManager.init, pushLevel, avgLevel, audio_level_threshold, modeBufferSize,
    List.sum_cons]

/-- C3: with frame skipping enabled, `should_skip_frame` returns true
exactly when the time since the last accepted frame is positive and
strictly below `1/target_fps` (i.e. the instantaneous rate strictly
exceeds the target; a call exactly at the threshold returns false); a
skipped call leaves the state — in particular `last_frame_time` —
untouched, and an accepting call (false with skipping enabled) sets
`last_frame_time` to the call instant.  With skipping disabled the call
returns false and changes nothing. -/
theorem C3_should_skip_frame (α : Type) (s : PerformanceOptimizer α) (now : ℚ)
    (ht : 0 < s.optimization_settings.target_fps) :
    ((should_skip_frame s now).1 = true ↔
      s.optimization_settings.enable_frame_skipping = true ∧
      0 < now - s.last_frame_time ∧
      now - s.last_frame_time < 1 / s.optimization_settings.target_fps) ∧
    ((should_skip_frame s now).1 = true → (should_skip_frame s now).2 = s) ∧
    (s.optimization_settings.enable_frame_skipping = true →
      (should_skip_frame s now).1 = false →
      ((should_skip_frame s now).2).last_frame_time = now) ∧
    (s.optimization_settings.enable_frame_skipping = false →
      (should_skip_frame s now).2 = s) := by
  cases he : s.optimization_settings.enable_frame_skipping with
  | false => simp [should_skip_frame, he]
  | true =>
    by_cases hdt : s.last_frame_time < now
    case pos =>
      have hdt' : 0 < now - s.last_frame_time := sub_pos.mpr hdt
      by_cases hskip : s.optimization_settings.target_fps < (now - s.last_frame_time)⁻¹
      case pos =>
        have e : should_skip_frame s now = (true, s) := by
          simp [should_skip_frame, he, hdt, hskip]
        have h1 : s.optimization_settings.target_fps * (now - s.last_frame_time) < 1 := by
          rw [← lt_div_iff₀ hdt', one_div]
          exact hskip
        have hlt : now - s.last_frame_time < 1 / s.optimization_settings.target_fps := by
          rw [lt_div_iff₀ ht, mul_comm]
          exact h1
        rw [e]
        simp [hdt']
        rw [← one_div]
        exact hlt
      case neg =>
        have e : should_skip_frame s now = (false, { s with last_frame_time := now }) := by
          simp [should_skip_frame, he, hdt, hskip]
        have hge : ¬ (now - s.last_frame_time < 1 / s.optimization_settings.target_fps) := by
          intro hcon
          apply hskip
          have h1 : (now - s.last_frame_time) * s.optimization_settings.target_fps < 1 :=
            (lt_div_iff₀ ht).mp hcon
          have h2 : s.optimization_settings.target_fps < 1 / (now - s.last_frame_time) := by
            rw [lt_div_iff₀ hdt', mul_comm]
            exact h1
          rw [one_div] at h2
          exact h2
        rw [e]
        simp [hge]
        intro _
        rw [← one_div]
        exact not_lt.mp hge
    case neg =>
      have hgt0 : ¬ (s.optimization_settings.target_fps < 0) := not_lt.mpr (le_of_lt ht)
      have e : should_skip_frame s now = (false, { s with last_frame_time := now }) := by
        simp [should_skip_frame, he, hdt, hgt0]
      have hnot : ¬ (0 < now - s.last_frame_time) := fun h => hdt (sub_pos.mp h)
      rw [e]
      simp [hnot]

theorem C3_should_skip_frame_witness :
    (should_skip_frame (PerformanceOptimizer.init ℕ 0) (1/100)).1 = true ∧
    (should_skip_frame (PerformanceOptimizer.init ℕ 0) (1/100)).2 =
      PerformanceOptimizer.init ℕ 0 := by
  have h := C3_should_skip_frame ℕ (PerformanceOptimizer.init ℕ 0) (1/100)
    (by norm_num [PerformanceOptimizer.init])
  have hskip : (should_skip_frame (PerformanceOptimizer.init ℕ 0) (1/100)).1 = true :=
    h.1.mpr (by norm_num [PerformanceOptimizer.init])
  exact ⟨hskip, h.2.1 hskip⟩

/-- C4 counterexample: after `measure_latency` has recorded a single
video-processing latency of 200 ms (the metric written by
`optimize_video_frame`), the mean of the `video_processing_time` deque
exceeds 100 ms, yet `auto_adjust_quality` leaves the resolution cap at
(640, 480) instead of shrinking it by 20 % — it inspects the distinct,
never-populated `video_latency` deque. -/
theorem C4_metric_mismatch_counterexample :
    meanOrZero c4State.metrics.video_processing_time > 100 ∧
    c4State.metrics.video_latency = [] ∧
    (auto_adjust_quality c4State).optimization_settings.max_resolution = (640, 480) ∧
    (auto_adjust_quality c4State).optimization_settings.audio_sample_rate = 16000 ∧
    ((640 : ℕ), (480 : ℕ)) ≠ (max 320 (640 * 4 / 5), max 240 (480 * 4 / 5)) := by
  refine ⟨?_, ?_, ?_, ?_, ?_⟩
  · norm_num [c4State, measure_latency, PerformanceOptimizer.init, Metrics.push,
      dequeAppend, meanOrZero]
  · norm_num [c4State, measure_latency, PerformanceOptimizer.init, Metrics.push, dequeAppend]
  · norm_num [c4State, measure_latency, PerformanceOptimizer.init, Metrics.push,
      dequeAppend, auto_adjust_quality, meanOrZero]
  · norm_num [c4State, measure_latency, PerformanceOptimizer.init, Metrics.push,
      dequeAppend, auto_adjust_quality, meanOrZero]
  · decide

/-- C4 amended: `auto_adjust_quality` is driven by the `video_latency`
and `audio_latency` metric deques (not by the processing-time metrics
recorded by the optimize functions): when the mean of the recorded
`video_latency` samples exceeds 100 ms the resolution cap shrinks by
20 % (floored at 320×240), and when the mean of the `audio_latency`
samples exceeds 50 ms the sample rate drops by 2000 Hz (floored at
8000 Hz); the 320×240 and 8000 Hz floors are preserved by every call. -/
theorem C4_auto_adjust_quality (α : Type) (s : PerformanceOptimizer α) :
    (meanOrZero s.metrics.video_latency > 100 →
      (auto_adjust_quality s).optimization_settings.max_resolution =
        (max 320 (s.optimization_settings.max_resolution.1 * 4 / 5),
         max 240 (s.optimization_settings.max_resolution.2 * 4 / 5))) ∧
    (¬ meanOrZero s.metrics.video_latency > 100 →
      (auto_adjust_quality s).optimization_settings.max_resolution =
        s.optimization_settings.max_resolution) ∧
    (meanOrZero s.metrics.audio_latency > 50 →
      (auto_adjust_quality s).optimization_settings.audio_sample_rate =
        max 8000 (s.optimization_settings.audio_sample_rate - 2000)) ∧
    (¬ meanOrZero s.metrics.audio_latency > 50 →
      (auto_adjust_quality s).optimization_settings.audio_sample_rate =
        s.optimization_settings.audio_sample_rate) ∧
    (320 ≤ s.optimization_settings.max_resolution.1 ∧
        240 ≤ s.optimization_settings.max_resolution.2 →
      320 ≤ (auto_adjust_quality s).optimization_settings.max_resolution.1 ∧
      240 ≤ (auto_adjust_quality s).optimization_settings.max_resolution.2) ∧
    (8000 ≤ s.optimization_settings.audio_sample_rate →
      8000 ≤ (auto_adjust_quality s).optimization_settings.audio_sample_rate) := by
  by_cases hv : meanOrZero s.metrics.video_latency > 100 <;>
    by_cases ha : meanOrZero s.metrics.audio_latency > 50 <;>
      simp [auto_adjust_quality, hv, ha]

theorem C4_auto_adjust_quality_witness :
    (auto_adjust_quality c4AmState).optimization_settings.max_resolution = (512, 384) ∧
    (auto_adjust_quality c4AmState).optimization_settings.audio_sample_rate = 16000 := by
  have h := C4_auto_adjust_quality ℕ c4AmState
  have hv : meanOrZero c4AmState.metrics.video_latency > 100 := by
    norm_num [c4AmState, measure_latency, PerformanceOptimizer.init, Metrics.push,
      dequeAppend, meanOrZero]
  have ha : ¬ meanOrZero c4AmState.metrics.audio_latency > 50 := by
    norm_num [c4AmState, measure_latency, PerformanceOptimizer.init, Metrics.push,
      dequeAppend, meanOrZero]
  refine ⟨?_, ?_⟩
  · rw [h.1 hv]
    norm_num [c4AmState, measure_latency, PerformanceOptimizer.init, Metrics.push, dequeAppend]
  · rw [h.2.2.2.1 ha]
    norm_num [c4AmState, measure_latency, PerformanceOptimizer.init, Metrics.push, dequeAppend]

/-- C10: `get_cached_gesture` is memoized by `lru_cache`.  A memo hit
returns the memoized value (whatever `self._cache` now holds) and keeps
the entry memoized; a memo miss computes `self._cache.get(key)`,
returns it, and memoizes exactly that value; and `cache_gesture` never
touches the memo table — so a key whose first lookup returned `none`
keeps returning `none` even after `cache_gesture` stores data for it,
until the memo entry is evicted. -/
theorem C10_get_cached_gesture_memoized (α : Type) (s : PerformanceOptimizer α)
    (k q : String) (v : Option α) (d : α) :
    (memoLookup s.gesture_memo k = some v →
      (get_cached_gesture s k).1 = v ∧
      memoLookup ((get_cached_gesture s k).2).gesture_memo k = some v) ∧
    (memoLookup s.gesture_memo k = none →
      (get_cached_gesture s k).1 = dictGet s.cache k ∧
      memoLookup ((get_cached_gesture s k).2).gesture_memo k = some (dictGet s.cache k)) ∧
    ((cache_gesture s q d).gesture_memo = s.gesture_memo) := by
  refine ⟨?_, ?_, ?_⟩
  · intro hm
    rw [get_cached_gesture, hm]
    exact ⟨rfl, by simp [memoLookup]⟩
  · intro hm
    rw [get_cached_gesture, hm]
    refine ⟨rfl, ?_⟩
    simp only
    split_ifs with hlen
    · cases hmemo : s.gesture_memo with
      | nil =>
        rw [hmemo] at hlen
        simp at hlen
      | cons x xs =>
        rw [List.dropLast_cons_of_ne_nil (by simp)]
        simp [memoLookup]
    · simp [memoLookup]
  · rw [cache_gesture]
    split_ifs <;> rfl

theorem C10_get_cached_gesture_memoized_witness :
    (get_cached_gesture c10State "g").1 = none ∧ dictGet c10State.cache "g" = some 7 := by
  have h := C10_get_cached_gesture_memoized ℕ c10State "g" "g" none 7
  have hm : memoLookup c10State.gesture_memo "g" = some none := by
    simp [c10State, cache_gesture, get_cached_gesture, PerformanceOptimizer.init,
      memoLookup, dictGet, dictSet]
  refine ⟨(h.1 hm).1, ?_⟩
  simp [c10State, cache_gesture, get_cached_gesture, PerformanceOptimizer.init,
    memoLookup, dictGet, dictSet]

/-- C6: when exactly one prediction survives the success filter,
`_ensemble_predictions` passes it through as the result, marks the
method `ensemble_single`, reports the sole channel in `models_used`,
and increments that channel's channel-only counter (leaving every other
statistic unchanged). -/
theorem C6_single_model_fallback (w : EnsembleWeights) (st : EnsembleStats)
    (preds : List Prediction) (p : Prediction)
    (hv : validOf preds = [p]) :
    (ensemble_predictions w st preds).1 = EnsembleOutcome.single p ∧
    ((ensemble_predictions w st preds).1).method = "ensemble_single" ∧
    ((ensemble_predictions w st preds).1).modelsUsed = [p.model] ∧
    ((ensemble_predictions w st preds).1).top1 = some p.prediction ∧
    (p.model = "i3d" →
      (ensemble_predictions w st preds).2 = { st with i3d_only := st.i3d_only + 1 }) ∧
    (p.model = "tgcn" →
      (ensemble_predictions w st preds).2 = { st with tgcn_only := st.tgcn_only + 1 }) := by
  rw [ensemble_predictions, hv]
  refine ⟨rfl, rfl, rfl, rfl, ?_, ?_⟩ <;>
    · intro hmod
      simp [bumpSingle, hmod]

theorem C6_single_model_fallback_witness :
    (ensemble_predictions defaultEnsembleWeights initEnsembleStats [wPredI3d, wPredFail]).1 =
      EnsembleOutcome.single wPredI3d ∧
    (ensemble_predictions defaultEnsembleWeights initEnsembleStats [wPredI3d, wPredFail]).2 =
      { initEnsembleStats with i3d_only := 1 } := by
  have h := C6_single_model_fallback defaultEnsembleWeights initEnsembleStats
    [wPredI3d, wPredFail] wPredI3d (by simp [validOf, wPredI3d, wPredFail])
  exact ⟨h.1, h.2.2.2.2.1 rfl⟩

theorem weightsSum_map_div (l : EnsembleWeights) (t : ℚ) :
    weightsSum (l.map (fun p => (p.1, p.2 / t))) = weightsSum l / t := by
  induction l with
  | nil => simp [weightsSum]
  | cons x xs ih =>
    simp only [weightsSum, List.map_cons, List.sum_cons] at ih ⊢
    rw [ih, add_div]

/-- C5 counterexample: weights supplied at construction are stored as
given — `{'i3d': 2, 'tgcn': 2}` is kept verbatim, the per-channel
weights applied at the point of use in `_ensemble_predictions` sum to 4
(not 1), and a channel's score vector is scaled by the raw weight 2. -/
theorem C5_unnormalized_init_counterexample :
    c5Weights = [("i3d", 2), ("tgcn", 2)] ∧
    weightsGet c5Weights "i3d" + weightsGet c5Weights "tgcn" = 4 ∧
    weightedProbs c5Weights c5Pred = [2, 0] ∧
    ((4 : ℚ) ≠ 1) := by
  have h1 : weightsGet c5Weights "i3d" = 2 := rfl
  have h2 : weightsGet c5Weights "tgcn" = 2 := rfl
  refine ⟨rfl, ?_, ?_, by norm_num⟩
  · rw [h1, h2]
    norm_num
  · simp only [weightedProbs, c5Pred]
    rw [h1]
    norm_num

/-- C5 amended: `update_ensemble_weights` renormalizes its argument to
sum to 1, but the constructor stores the supplied weights unnormalized;
during fusion each channel's vector is scaled by its raw stored weight
and the summed vector is then divided by the total of all stored
weights, so the effective per-channel coefficients
`weight/total` sum to 1 exactly when the stored keys are the
contributing channels. -/
theorem C5_weights_renormalization (w : EnsembleWeights) (m1 m2 : String) (a b : ℚ)
    (hw : weightsSum w ≠ 0) (hm : ¬ m1 = m2) (hab : a + b ≠ 0) :
    weightsSum (update_ensemble_weights w) = 1 ∧
    initEnsembleWeights (some [(m1, a), (m2, b)]) = [(m1, a), (m2, b)] ∧
    weightsGet [(m1, a), (m2, b)] m1 / weightsSum [(m1, a), (m2, b)] +
      weightsGet [(m1, a), (m2, b)] m2 / weightsSum [(m1, a), (m2, b)] = 1 := by
  refine ⟨?_, ?_, ?_⟩
  · rw [update_ensemble_weights, weightsSum_map_div, div_self hw]
  · simp [initEnsembleWeights]
  · have hg1 : weightsGet [(m1, a), (m2, b)] m1 = a := by
      simp [weightsGet, List.find?_cons]
    have hg2 : weightsGet [(m1, a), (m2, b)] m2 = b := by
      simp [weightsGet, List.find?_cons, hm]
    have hs : weightsSum [(m1, a), (m2, b)] = a + b := by
      simp [weightsSum]
    rw [hg1, hg2, hs, div_add_div_same, div_self hab]

theorem C5_weights_renormalization_witness :
    weightsSum (update_ensemble_weights [("i3d", 2), ("tgcn", 2)]) = 1 ∧
    weightsGet [(("i3d" : String), (2 : ℚ)), ("tgcn", 2)] "i3d" /
        weightsSum [(("i3d" : String), (2 : ℚ)), ("tgcn", 2)] +
      weightsGet [(("i3d" : String), (2 : ℚ)), ("tgcn", 2)] "tgcn" /
        weightsSum [(("i3d" : String), (2 : ℚ)), ("tgcn", 2)] = 1 := by
  have h := C5_weights_renormalization [("i3d", 2), ("tgcn", 2)] "i3d" "tgcn" 2 2
    (by norm_num [weightsSum]) (by decide) (by norm_num)
  exact ⟨h.1, h.2.2⟩

theorem bumpSingle_fields (st : EnsembleStats) (m : String) :
    (bumpSingle st m).ensemble_predictions = st.ensemble_predictions ∧
    (bumpSingle st m).average_confidence = st.average_confidence ∧
    (bumpSingle st m).agreement_rate = st.agreement_rate ∧
    (bumpSingle st m).i3d_only = st.i3d_only + (if m == "i3d" then 1 else 0) ∧
    (bumpSingle st m).tgcn_only = st.tgcn_only + (if m == "tgcn" then 1 else 0) := by
  rw [bumpSingle]
  split_ifs with hi htg <;> simp_all

theorem recordFusion_fields (st : EnsembleStats) (ag : Bool) (c : ℚ) :
    (recordFusion st ag c).ensemble_predictions = st.ensemble_predictions + 1 ∧
    (recordFusion st ag c).i3d_only = st.i3d_only ∧
    (recordFusion st ag c).tgcn_only = st.tgcn_only ∧
    (recordFusion st ag c).average_confidence * ((st.ensemble_predictions : ℚ) + 1) =
      st.average_confidence * (st.ensemble_predictions : ℚ) + c ∧
    (recordFusion st ag c).agreement_rate * ((st.ensemble_predictions : ℚ) + 1) =
      st.agreement_rate * (st.ensemble_predictions : ℚ) + (if ag then 1 else 0) := by
  have hn : ((st.ensemble_predictions + 1 : ℕ) : ℚ) = (st.ensemble_predictions : ℚ) + 1 := by
    push_cast
    ring
  have hne : ((st.ensemble_predictions : ℚ) + 1) ≠ 0 := by positivity
  refine ⟨rfl, rfl, rfl, ?_, ?_⟩ <;>
    · rw [recordFusion]
      simp only [hn]
      rw [div_mul_cancel₀ _ hne]
      ring

theorem run_ensemble_invariant (w : EnsembleWeights) (batches : List (List Prediction)) :
    ∀ st : EnsembleStats,
    (run_ensemble w st batches).ensemble_predictions =
      st.ensemble_predictions + (batches.filter isRecorded).length ∧
    (run_ensemble w st batches).i3d_only =
      st.i3d_only + (batches.filter (isSingleOf "i3d")).length ∧
    (run_ensemble w st batches).tgcn_only =
      st.tgcn_only + (batches.filter (isSingleOf "tgcn")).length ∧
    (run_ensemble w st batches).average_confidence *
        (((run_ensemble w st batches).ensemble_predictions : ℚ)) =
      st.average_confidence * (st.ensemble_predictions : ℚ) +
        ((batches.filter isRecorded).map (fusedConfOf w)).sum ∧
    (run_ensemble w st batches).agreement_rate *
        (((run_ensemble w st batches).ensemble_predictions : ℚ)) =
      st.agreement_rate * (st.ensemble_predictions : ℚ) +
        ((((batches.filter isRecorded).filter agreementOfBatch).length : ℕ) : ℚ) ∧
    (batches.filter isRecorded = [] →
      (run_ensemble w st batches).average_confidence = st.average_confidence ∧
      (run_ensemble w st batches).agreement_rate = st.agreement_rate) := by
  induction batches with
  | nil =>
    intro st
    simp [run_ensemble]
  | cons b bs ih =>
    intro st
    cases hv : validOf b with
    | nil =>
      have hrec : isRecorded b = false := by simp [isRecorded, hv]
      have h1 : isSingleOf "i3d" b = false := by simp [isSingleOf, hv]
      have h2 : isSingleOf "tgcn" b = false := by simp [isSingleOf, hv]
      have hstep : run_ensemble w st (b :: bs) = run_ensemble w st bs := by
        simp [run_ensemble, ensemble_predictions, hv]
      rw [hstep]
      simpa [List.filter_cons, hrec, h1, h2] using ih st
    | cons p rest =>
      cases rest with
      | nil =>
        have hrec : isRecorded b = false := by simp [isRecorded, hv]
        have hsing : ∀ m : String, isSingleOf m b = (p.model == m) := by
          intro m
          simp [isSingleOf, hv]
        have hstep : run_ensemble w st (b :: bs) =
            run_ensemble w (bumpSingle st p.model) bs := by
          simp [run_ensemble, ensemble_predictions, hv]
        obtain ⟨e1, e2, e3, e4, e5, e6⟩ := ih (bumpSingle st p.model)
        obtain ⟨f1, f2, f3, f4, f5⟩ := bumpSingle_fields st p.model
        rw [hstep]
        refine ⟨?_, ?_, ?_, ?_, ?_, ?_⟩
        · rw [e1, f1]
          simp [List.filter_cons, hrec]
        · rw [e2, f4]
          rw [List.filter_cons, hsing "i3d"]
          cases hpm : (p.model == "i3d") <;> simp [hpm]
          omega
        · rw [e3, f5]
          rw [List.filter_cons, hsing "tgcn"]
          cases hpm : (p.model == "tgcn") <;> simp [hpm]
          omega
        · rw [e4, f2, f1]
          simp [List.filter_cons, hrec]
        · rw [e5, f3, f1]
          simp [List.filter_cons, hrec]
        · intro hnil
          rw [List.filter_cons, hrec] at hnil
          simp only [Bool.false_eq_true, if_neg] at hnil
          obtain ⟨g1, g2⟩ := e6 (by simpa using hnil)
          rw [g1, g2, f2, f3]
          exact ⟨rfl, rfl⟩
      | cons q rest2 =>
        have hrec : isRecorded b = true := by simp [isRecorded, hv]
        have h1 : isSingleOf "i3d" b = false := by simp [isSingleOf, hv]
        have h2 : isSingleOf "tgcn" b = false := by simp [isSingleOf, hv]
        have hagb : agreementOfBatch b = agreementOf (p :: q :: rest2) := by
          rw [agreementOfBatch, hv]
        have hcfb : fusedConfOf w b =
            (ensembleProbsOf w (p :: q :: rest2)).getD
              (argmaxQ (ensembleProbsOf w (p :: q :: rest2))) 0 := by
          rw [fusedConfOf, hv]
        have hstep : run_ensemble w st (b :: bs) =
            run_ensemble w (recordFusion st (agreementOfBatch b) (fusedConfOf w b)) bs := by
          rw [run_ensemble, ensemble_predictions, hv, hagb, hcfb]
        obtain ⟨e1, e2, e3, e4, e5, e6⟩ :=
          ih (recordFusion st (agreementOfBatch b) (fusedConfOf w b))
        obtain ⟨f1, f2, f3, f4, f5⟩ :=
          recordFusion_fields st (agreementOfBatch b) (fusedConfOf w b)
        rw [hstep]
        refine ⟨?_, ?_, ?_, ?_, ?_, ?_⟩
        · rw [e1, f1]
          rw [List.filter_cons, hrec]
          simp
          omega
        · rw [e2, f2]
          simp [List.filter_cons, h1]
        · rw [e3, f3]
          simp [List.filter_cons, h2]
        · rw [e4]
          rw [List.filter_cons, hrec]
          simp only [if_pos, List.map_cons, List.sum_cons]
          have hcast : (((recordFusion st (agreementOfBatch b) (fusedConfOf w b)).ensemble_predictions : ℕ) : ℚ) =
              (st.ensemble_predictions : ℚ) + 1 := by
            rw [f1]
            push_cast
            ring
          rw [hcast, f4]
          ring
        · rw [e5]
          rw [List.filter_cons, hrec]
          simp only [if_pos]
          have hcast : (((recordFusion st (agreementOfBatch b) (fusedConfOf w b)).ensemble_predictions : ℕ) : ℚ) =
              (st.ensemble_predictions : ℚ) + 1 := by
            rw [f1]
            push_cast
            ring
          rw [hcast, f5]
          rw [List.filter_cons]
          cases hag : agreementOfBatch b
          · simp [hag]
          · simp [hag]
            ring
        · intro hnil
          rw [List.filter_cons, hrec] at hnil
          simp at hnil

/-- C7: over any sequence of fusions starting from the freshly
initialised statistics, the running count equals the number of
recorded (multi-model) fusions and increments on each of them, the
running mean confidence equals the arithmetic mean of the recorded
fused confidences, the running agreement rate equals the fraction of
recorded fusions whose agreement flag was true, and the per-channel
counters count the single-channel fusions per channel. -/
theorem C7_running_statistics (w : EnsembleWeights) (batches : List (List Prediction)) :
    (run_ensemble w initEnsembleStats batches).ensemble_predictions =
      (batches.filter isRecorded).length ∧
    (run_ensemble w initEnsembleStats batches).i3d_only =
      (batches.filter (isSingleOf "i3d")).length ∧
    (run_ensemble w initEnsembleStats batches).tgcn_only =
      (batches.filter (isSingleOf "tgcn")).length ∧
    (run_ensemble w initEnsembleStats batches).average_confidence =
      (if (batches.filter isRecorded).length = 0 then 0
       else ((batches.filter isRecorded).map (fusedConfOf w)).sum /
         ((batches.filter isRecorded).length : ℚ)) ∧
    (run_ensemble w initEnsembleStats batches).agreement_rate =
      (if (batches.filter isRecorded).length = 0 then 0
       else (((batches.filter isRecorded).filter agreementOfBatch).length : ℚ) /
         ((batches.filter isRecorded).length : ℚ)) ∧
    (∀ st : EnsembleStats, ∀ b : List Prediction, isRecorded b = true →
      ((ensemble_predictions w st b).2).ensemble_predictions =
        st.ensemble_predictions + 1) := by
  obtain ⟨e1, e2, e3, e4, e5, e6⟩ := run_ensemble_invariant w batches initEnsembleStats
  have hinit : initEnsembleStats.ensemble_predictions = 0 := rfl
  refine ⟨?_, ?_, ?_, ?_, ?_, ?_⟩
  · rw [e1]
    simp [initEnsembleStats]
  · rw [e2]
    simp [initEnsembleStats]
  · rw [e3]
    simp [initEnsembleStats]
  · by_cases hlen : (batches.filter isRecorded).length = 0
    · rw [if_pos hlen]
      exact (e6 (List.length_eq_zero.mp hlen)).1
    · rw [if_neg hlen]
      have hne : (((batches.filter isRecorded).length : ℕ) : ℚ) ≠ 0 := by
        exact_mod_cast hlen
      rw [eq_div_iff hne]
      rw [e1] at e4
      simpa [initEnsembleStats] using e4
  · by_cases hlen : (batches.filter isRecorded).length = 0
    · rw [if_pos hlen]
      exact (e6 (List.length_eq_zero.mp hlen)).2
    · rw [if_neg hlen]
      have hne : (((batches.filter isRecorded).length : ℕ) : ℚ) ≠ 0 := by
        exact_mod_cast hlen
      rw [eq_div_iff hne]
      rw [e1] at e5
      simpa [initEnsembleStats] using e5
  · intro st b hb
    rw [isRecorded] at hb
    cases hv : validOf b with
    | nil =>
      rw [hv] at hb
      simp at hb
    | cons p rest =>
      cases rest with
      | nil =>
        rw [hv] at hb
        simp at hb
      | cons q rest2 =>
        rw [ensemble_predictions, hv]
        exact (recordFusion_fields st _ _).1

theorem C7_running_statistics_witness :
    (run_ensemble defaultEnsembleWeights initEnsembleStats
        [[wPredI3d, wPredTgcn]]).ensemble_predictions = 1 ∧
    ((ensemble_predictions defaultEnsembleWeights initEnsembleStats
        [wPredI3d, wPredTgcn]).2).ensemble_predictions = 1 := by
  have h := C7_running_statistics defaultEnsembleWeights [[wPredI3d, wPredTgcn]]
  have hrec : isRecorded [wPredI3d, wPredTgcn] = true := by
    simp [isRecorded, validOf, wPredI3d, wPredTgcn]
  constructor
  · rw [h.1]
    simp [List.filter_cons, hrec]
  · rw [h.2.2.2.2.2 initEnsembleStats [wPredI3d, wPredTgcn] hrec]
    rfl

theorem argmaxQ_lt_length (l : List ℚ) (hne : l ≠ []) : argmaxQ l < l.length := by
  induction l with
  | nil => exact absurd rfl hne
  | cons x xs ih =>
    cases xs with
    | nil => simp [argmaxQ]
    | cons y ys =>
      simp only [argmaxQ]
      split_ifs
      · have hj := ih (by simp)
        simp only [List.length_cons] at hj ⊢
        omega
      · simp

theorem argmaxQ_eq_of_isFirstMax (l : List ℚ) : ∀ i : ℕ, IsFirstMax l i → argmaxQ l = i := by
  induction l with
  | nil =>
    intro i h
    exact absurd h.1 (by simp)
  | cons x xs ih =>
    intro i h
    obtain ⟨hilen, hle, hlt⟩ := h
    cases xs with
    | nil =>
      simp only [List.length_cons, List.length_nil] at hilen
      have hi0 : i = 0 := by omega
      subst hi0
      rfl
    | cons y ys =>
      cases i with
      | zero =>
        have hj : argmaxQ (y :: ys) < (y :: ys).length :=
          argmaxQ_lt_length (y :: ys) (by simp)
        have hup : (y :: ys).getD (argmaxQ (y :: ys)) 0 ≤ x := by
          have hb := hle (argmaxQ (y :: ys) + 1)
            (by simpa using Nat.succ_lt_succ hj)
          simpa [List.getD_cons_succ, List.getD_cons_zero] using hb
        simp only [argmaxQ]
        rw [if_neg (not_lt.mpr hup)]
      | succ k =>
        have hxk : x < (y :: ys).getD k 0 := by
          have hb := hlt 0 (Nat.succ_pos k)
          simpa [List.getD_cons_zero, List.getD_cons_succ] using hb
        have hfmax : IsFirstMax (y :: ys) k := by
          refine ⟨?_, ?_, ?_⟩
          · simpa using hilen
          · intro j hjl
            have hb := hle (j + 1) (by simpa using Nat.succ_lt_succ hjl)
            simpa [List.getD_cons_succ] using hb
          · intro j hjk
            have hb := hlt (j + 1) (Nat.succ_lt_succ hjk)
            simpa [List.getD_cons_succ] using hb
        have hjeq : argmaxQ (y :: ys) = k := ih k hfmax
        simp only [argmaxQ]
        rw [hjeq, if_pos hxk]

theorem fusedProbs_getD (a : List ℚ) (w1 w2 s : ℚ) :
    ∀ (b : List ℚ) (j : ℕ), b.length = a.length → j < a.length →
      ((List.zipWith (fun u v => u + v) (a.map (fun q => q * w1))
          (b.map (fun q => q * w2))).map (fun q => q / s)).getD j 0 =
        (a.getD j 0 * w1 + b.getD j 0 * w2) / s := by
  induction a with
  | nil =>
    intro b j hb hj
    simp at hj
  | cons x xs iha =>
    intro b j hb hj
    cases b with
    | nil => simp at hb
    | cons y ys =>
      cases j with
      | zero => simp
      | succ k =>
        simp only [List.map_cons, List.zipWith_cons_cons, List.getD_cons_succ]
        apply iha
        · simpa using hb
        · simpa using hj

theorem ensembleProbsOf_pair_getD (w : EnsembleWeights) (p1 p2 : Prediction) (j : ℕ)
    (hb : p2.probabilities.length = p1.probabilities.length)
    (hj : j < p1.probabilities.length) :
    (ensembleProbsOf w [p1, p2]).getD j 0 =
      (p1.probabilities.getD j 0 * weightsGet w p1.model +
        p2.probabilities.getD j 0 * weightsGet w p2.model) / weightsSum w := by
  have hacc : accumProbs w [p1, p2] =
      List.zipWith (fun u v => u + v) (weightedProbs w p1) (weightedProbs w p2) := rfl
  rw [ensembleProbsOf, hacc, weightedProbs, weightedProbs]
  exact fusedProbs_getD p1.probabilities (weightsGet w p1.model) (weightsGet w p2.model)
    (weightsSum w) p2.probabilities j hb hj

theorem ensembleProbsOf_pair_length (w : EnsembleWeights) (p1 p2 : Prediction)
    (hb : p2.probabilities.length = p1.probabilities.length) :
    (ensembleProbsOf w [p1, p2]).length = p1.probabilities.length := by
  have hacc : accumProbs w [p1, p2] =
      List.zipWith (fun u v => u + v) (weightedProbs w p1) (weightedProbs w p2) := rfl
  simp [ensembleProbsOf, hacc, weightedProbs, hb]

/-- C2: in a two-channel fusion with both predictions successful and
distinct model names, the agreement flag is true exactly when the two
channels' individual top-1 predictions coincide; and when both
channels' top-1 equals the same label X (each `prediction` field being
the first-occurrence arg-max of its own score vector), the fused top-1
equals X and the agreement flag is true.  The weight hypotheses
(nonnegative channel weights, positive weight total) hold for the
default 0.6/0.4 configuration. -/
theorem C2_agreement_and_fused_top1 (w : EnsembleWeights) (st : EnsembleStats)
    (p1 p2 : Prediction) (X : ℕ)
    (h1 : p1.success = true) (h2 : p2.success = true)
    (hm : ¬ p1.model = p2.model)
    (hlen : p2.probabilities.length = p1.probabilities.length)
    (hw1 : 0 ≤ weightsGet w p1.model) (hw2 : 0 ≤ weightsGet w p2.model)
    (hw12 : 0 < weightsGet w p1.model + weightsGet w p2.model)
    (hS : 0 < weightsSum w) :
    ((ensemble_predictions w st [p1, p2]).1).agreementFlag =
      some (decide (p1.prediction = p2.prediction)) ∧
    (p1.prediction = X → p2.prediction = X →
      IsFirstMax p1.probabilities X → IsFirstMax p2.probabilities X →
      ((ensemble_predictions w st [p1, p2]).1).top1 = some X ∧
      ((ensemble_predictions w st [p1, p2]).1).agreementFlag = some true) := by
  have hv : validOf [p1, p2] = [p1, p2] := by simp [validOf, h1, h2]
  have hag : agreementOf [p1, p2] = (p2.prediction == p1.prediction) := by
    simp [agreementOf, modelResults, dictSet, allSame, hm]
  have hout1 : ((ensemble_predictions w st [p1, p2]).1).agreementFlag =
      some (agreementOf [p1, p2]) := by
    rw [ensemble_predictions, hv]
    rfl
  have hout2 : ((ensemble_predictions w st [p1, p2]).1).top1 =
      some (argmaxQ (ensembleProbsOf w [p1, p2])) := by
    rw [ensemble_predictions, hv]
    rfl
  constructor
  · rw [hout1, hag]
    congr 1
    by_cases hd : p1.prediction = p2.prediction
    · simp [hd]
    · have hd' : ¬ p2.prediction = p1.prediction := fun hx => hd hx.symm
      simp [hd, hd']
  · intro hx1 hx2 hf1 hf2
    refine ⟨?_, ?_⟩
    · rw [hout2]
      congr 1
      apply argmaxQ_eq_of_isFirstMax
      have hlenf : (ensembleProbsOf w [p1, p2]).length = p1.probabilities.length :=
        ensembleProbsOf_pair_length w p1 p2 hlen
      obtain ⟨ha1, ha2, ha3⟩ := hf1
      obtain ⟨hb1, hb2, hb3⟩ := hf2
      refine ⟨?_, ?_, ?_⟩
      · rw [hlenf]
        exact ha1
      · intro j hj
        rw [hlenf] at hj
        rw [ensembleProbsOf_pair_getD w p1 p2 j hlen hj,
          ensembleProbsOf_pair_getD w p1 p2 X hlen ha1]
        have hnum : p1.probabilities.getD j 0 * weightsGet w p1.model +
            p2.probabilities.getD j 0 * weightsGet w p2.model ≤
            p1.probabilities.getD X 0 * weightsGet w p1.model +
            p2.probabilities.getD X 0 * weightsGet w p2.model := by
          have t1 := mul_le_mul_of_nonneg_right (ha2 j hj) hw1
          have t2 := mul_le_mul_of_nonneg_right
            (hb2 j (by rw [hlen]; exact hj)) hw2
          exact add_le_add t1 t2
        exact (div_le_div_iff_of_pos_right hS).mpr hnum
      · intro j hjX
        have hj : j < p1.probabilities.length := lt_trans hjX ha1
        rw [ensembleProbsOf_pair_getD w p1 p2 j hlen hj,
          ensembleProbsOf_pair_getD w p1 p2 X hlen ha1]
        have hnum : p1.probabilities.getD j 0 * weightsGet w p1.model +
            p2.probabilities.getD j 0 * weightsGet w p2.model <
            p1.probabilities.getD X 0 * weightsGet w p1.model +
            p2.probabilities.getD X 0 * weightsGet w p2.model := by
          rcases eq_or_lt_of_le hw1 with h0 | hpos
          · have hw2pos : 0 < weightsGet w p2.model := by
              rw [← h0] at hw12
              simpa using hw12
            rw [← h0]
            simpa using mul_lt_mul_of_pos_right (hb3 j hjX) hw2pos
          · have t1 := mul_lt_mul_of_pos_right (ha3 j hjX) hpos
            have t2 := mul_le_mul_of_nonneg_right (le_of_lt (hb3 j hjX)) hw2
            exact add_lt_add_of_lt_of_le t1 t2
        exact (div_lt_div_iff_of_pos_right hS).mpr hnum
    · rw [hout1, hag, hx1, hx2]
      simp

theorem C2_agreement_and_fused_top1_witness :
    ((ensemble_predictions defaultEnsembleWeights initEnsembleStats
        [wPredI3d, wPredTgcn]).1).top1 = some 1 ∧
    ((ensemble_predictions defaultEnsembleWeights initEnsembleStats
        [wPredI3d, wPredTgcn]).1).agreementFlag = some true := by
  have hg1 : weightsGet defaultEnsembleWeights wPredI3d.model = 3/5 := rfl
  have hg2 : weightsGet defaultEnsembleWeights wPredTgcn.model = 2/5 := rfl
  have hs : weightsSum defaultEnsembleWeights = 3/5 + (2/5 + 0) := rfl
  have hf1 : IsFirstMax wPredI3d.probabilities 1 := by
    refine ⟨by norm_num [wPredI3d], ?_, ?_⟩
    · intro j hj
      simp only [wPredI3d, List.length_cons, List.length_nil] at hj
      interval_cases j <;> norm_num [wPredI3d]
    · intro j hj
      interval_cases j
      norm_num [wPredI3d]
  have hf2 : IsFirstMax wPredTgcn.probabilities 1 := by
    refine ⟨by norm_num [wPredTgcn], ?_, ?_⟩
    · intro j hj
      simp only [wPredTgcn, List.length_cons, List.length_nil] at hj
      interval_cases j <;> norm_num [wPredTgcn]
    · intro j hj
      interval_cases j
      norm_num [wPredTgcn]
  have h := C2_agreement_and_fused_top1 defaultEnsembleWeights initEnsembleStats
    wPredI3d wPredTgcn 1 rfl rfl (by decide) rfl
    (by rw [hg1]; norm_num) (by rw [hg2]; norm_num)
    (by rw [hg1, hg2]; norm_num) (by rw [hs]; norm_num)
  exact h.2 rfl rfl hf1 hf2
